import Mathlib

/- Shallow embedding of the eprx_scraper repository (eprx_scraper.py and
   run_eprx_results.py).  Filesystem state is modelled as an association list
   from paths to byte contents plus a set of directories; the HTTP transport
   is a function from URLs to either an exception or a response; the zipfile
   library is a function from archive bytes to either an exception or a list
   of entries; text codecs are parameter functions.  Machine effects such as
   printing are dropped; the printed outcome of each download is reflected in
   an explicit outcome value. -/

namespace Eprx

/-- Byte strings are modelled as lists of naturals. -/
abbrev Bytes := List Nat

/-- The filesystem: files as a path-to-content association list (the first
binding for a path wins), plus the set of existing directories. -/
structure FS where
  files : List (String × Bytes)
  dirs : List String
deriving Repr, DecidableEq

/-- Read a file: the content bound to the first matching path, if any. -/
def fsRead (fs : FS) (p : String) : Option Bytes :=
  (fs.files.find? (fun e => e.1 == p)).map (fun e => e.2)

/-- Model of os.path.exists: true for an existing file or directory. -/
def fsExists (fs : FS) (p : String) : Bool :=
  (fsRead fs p).isSome || fs.dirs.contains p

/-- Model of os.path.isdir. -/
def fsIsDir (fs : FS) (p : String) : Bool :=
  fs.dirs.contains p

/-- Write a file, replacing any previous binding of the same path. -/
def fsWrite (fs : FS) (p : String) (c : Bytes) : FS :=
  ⟨(p, c) :: fs.files.filter (fun e => e.1 != p), fs.dirs⟩

/-- Model of os.makedirs with exist_ok=True for the directory itself. -/
def fsMkdir (fs : FS) (p : String) : FS :=
  ⟨fs.files, p :: fs.dirs⟩

/-- Model of os.remove. -/
def fsRemove (fs : FS) (p : String) : FS :=
  ⟨fs.files.filter (fun e => e.1 != p), fs.dirs⟩

/-- The empty filesystem. -/
def fsEmpty : FS := ⟨[], []⟩

/- Path and string helpers mirroring os.path and str methods, written over
   List Char so that every use reduces in the kernel. -/

/-- Characters of a path up to and including its last slash (empty if none). -/
def dirOfChars (l : List Char) : List Char :=
  (l.reverse.dropWhile (fun c => c ≠ '/')).reverse

/-- Characters of a path after its last slash. -/
def basenameChars (l : List Char) : List Char :=
  (l.reverse.takeWhile (fun c => c ≠ '/')).reverse

/-- Model of os.path.basename for slash-separated paths. -/
def basename (s : String) : String := ⟨basenameChars s.data⟩

/-- Model of os.path.dirname for slash-separated paths. -/
def dirname (s : String) : String := ⟨(dirOfChars s.data).dropLast⟩

/-- Model of os.path.join for a relative right operand. -/
def joinPath (d n : String) : String := d ++ "/" ++ n

/-- Replace every non-overlapping occurrence of a nonempty pattern, scanning
left to right, with explicit fuel (structural recursion so that every use
reduces in the kernel; fuel equal to the list length always suffices since
each step consumes at least one character). -/
def replaceAllFuel (pat repl : List Char) : Nat → List Char → List Char
  | _, [] => []
  | 0, l => l
  | fuel + 1, c :: rest =>
    if 0 < pat.length ∧ pat.isPrefixOf (c :: rest) then
      repl ++ replaceAllFuel pat repl fuel ((c :: rest).drop pat.length)
    else
      c :: replaceAllFuel pat repl fuel rest

/-- Model of Python str.replace (for the nonempty patterns the code uses). -/
def strReplace (s pat repl : String) : String :=
  ⟨replaceAllFuel pat.data repl.data s.data.length s.data⟩

/-- Scheme-and-host prefix of an absolute http(s) URL. -/
def takeOrigin : List Char → List Char
  | ':' :: '/' :: '/' :: rest => ':' :: '/' :: '/' :: rest.takeWhile (fun c => c ≠ '/')
  | c :: rest => c :: takeOrigin rest
  | [] => []

/-- Whether a reference is already an absolute http(s) URL. -/
def hasHttpScheme (r : String) : Bool :=
  List.isPrefixOf "http://".data r.data || List.isPrefixOf "https://".data r.data

/-- Model of urllib.parse.urljoin for the reference shapes this site uses:
an absolute http(s) URL is returned unchanged, a root-relative reference is
resolved against the base origin, and any other reference replaces the last
path segment of the base. -/
def urljoin (base r : String) : String :=
  if hasHttpScheme r then r
  else if List.isPrefixOf ['/'] r.data then ⟨takeOrigin base.data⟩ ++ r
  else ⟨dirOfChars base.data⟩ ++ r

/-- Root of a basename under os.path.splitext: split at the last dot unless
every character before it is a dot. -/
def splitextBaseRoot (b : List Char) : List Char :=
  let extRev := b.reverse.takeWhile (fun c => c ≠ '.')
  if extRev.length == b.length then b
  else
    let root := b.take (b.length - extRev.length - 1)
    if root.any (fun c => c ≠ '.') then root else b

/-- Model of os.path.splitext(p)[0]. -/
def splitextFst (p : String) : String :=
  ⟨dirOfChars p.data ++ splitextBaseRoot (basenameChars p.data)⟩

/-- The module constant BASE_URL. -/
def BASE_URL : String := "https://www.eprx.or.jp/information/"

/-- The module constant RESULTS_PAGE = urljoin(BASE_URL, "results.php"). -/
def RESULTS_PAGE : String := urljoin BASE_URL "results.php"

/- HTML model for parse_links.  BeautifulSoup navigation is modelled at the
   granularity the function inspects: a document is a flat list of the nodes
   find and find_next traverse in document order; a table row carries the
   stripped text of its first th[scope=row] (if any) and the href of each of
   its anchors with an href attribute, in document order. -/

/-- A table row as parse_links inspects it. -/
structure Tr where
  thScopeRow : Option String
  anchors : List String
deriving Repr, DecidableEq

/-- A document node as parse_links inspects it. -/
inductive Node where
  | h2 (text : String)
  | table (rows : List Tr)
  | other
deriving Repr, DecidableEq

/-- The heading text selected for each report_type (source lines 160-164). -/
def tableTitle (reportType : String) : String :=
  if reportType == "final" then "取引結果・連系線確保量結果ダウンロード（確報値）"
  else "取引結果・連系線確保量結果ダウンロード（速報値）"

/-- Model of soup.find("h2", string=title): the rest of the document after
the first h2 whose string equals the title. -/
def findH2 (title : String) : List Node → Option (List Node)
  | [] => none
  | Node.h2 t :: rest => if t == title then some rest else findH2 title rest
  | _ :: rest => findH2 title rest

/-- Model of section_title.find_next("table"): the rows of the first table
at or after the current position. -/
def findNextTable : List Node → Option (List Tr)
  | [] => none
  | Node.table rows :: _ => some rows
  | _ :: rest => findNextTable rest

/-- The row-skipping test of parse_links (source lines 174-178): a row is
skipped when it has a th[scope=row], a year was given and is non-empty (a
None or empty year is falsy in Python), and the label with "年度" removed
differs from the year. -/
def rowSkipped (year : Option String) (tr : Tr) : Bool :=
  match tr.thScopeRow, year with
  | some t, some y => y != "" && strReplace t "年度" "" != y
  | _, _ => false

/-- The links contributed by one row (source lines 179-180). -/
def rowLinks (baseUrl : String) (year : Option String) (tr : Tr) : List String :=
  if rowSkipped year tr then [] else tr.anchors.map (urljoin baseUrl)

/-- The loop over table rows of parse_links (source lines 173-180). -/
def collectLinks (baseUrl : String) (year : Option String) : List Tr → List String
  | [] => []
  | tr :: rest => rowLinks baseUrl year tr ++ collectLinks baseUrl year rest

/-- Model of EPRX.parse_links (source lines 156-181).  The baseUrl argument
is self.base_url, BASE_URL in every instance. -/
def parse_links (baseUrl : String) (doc : List Node) (year : Option String)
    (reportType : String) : List String :=
  match findH2 (tableTitle reportType) doc with
  | none => []
  | some rest =>
    match findNextTable rest with
    | none => []
    | some rows => collectLinks baseUrl year rows

/-- Declarative row-keeping predicate: a row is kept when it has no year
label, or the requested year is empty, or the label with "年度" removed
equals the requested year.  Complement of rowSkipped. -/
def keepRow (year : Option String) (tr : Tr) : Bool :=
  match tr.thScopeRow, year with
  | some t, some y => y == "" || strReplace t "年度" "" == y
  | _, _ => true

/-- Declarative description of the extraction: the anchors of the kept rows,
resolved against the base URL, in document order. -/
def matchingLinks (baseUrl : String) (year : Option String) (rows : List Tr) : List String :=
  ((rows.filter (keepRow year)).map (fun tr => tr.anchors.map (urljoin baseUrl))).flatten

/-- Formalisation of the claimed behaviour, following the claim words: only
rows WHOSE YEAR LABEL (with the suffix removed) EQUALS the requested year
contribute links, so a row without a year label contributes nothing. -/
def keepRowClaimed (year : String) (tr : Tr) : Bool :=
  match tr.thScopeRow with
  | some t => strReplace t "年度" "" == year
  | none => false

/-- The links the claim says parse_links returns: exactly the anchors of the
rows whose year label matches, in document order. -/
def claimedLinks (baseUrl : String) (year : String) (rows : List Tr) : List String :=
  ((rows.filter (keepRowClaimed year)).map (fun tr => tr.anchors.map (urljoin baseUrl))).flatten

/- Download model. -/

/-- An HTTP response: requests.Response restricted to the fields the code
reads (r.ok and r.content). -/
structure Resp where
  ok : Bool
  content : Bytes
deriving Repr, DecidableEq

/-- The transport: a URL either raises (Except.error, message) or yields a
response. -/
abbrev Http := String → Except String Resp

/-- The printed outcome of one download attempt. -/
inductive DlOutcome where
  | downloaded
  | skipped
  | failed
  | errored
deriving Repr, DecidableEq

/-- The body of the loop of EPRX.download_files (source lines 187-201) for
one link: result state, outcome, and the number of network requests made. -/
def downloadOne (net : Http) (overwrite : Bool) (outDir : String) (fs : FS)
    (url : String) : FS × DlOutcome × Nat :=
  let filename := joinPath outDir (basename url)
  if fsExists fs filename && !overwrite then (fs, DlOutcome.skipped, 0)
  else
    match net url with
    | Except.error _ => (fs, DlOutcome.errored, 1)
    | Except.ok r =>
      if r.ok && decide (100 < r.content.length) then
        (fsWrite fs filename r.content, DlOutcome.downloaded, 1)
      else (fs, DlOutcome.failed, 1)

/-- The loop of EPRX.download_files over its links. -/
def downloadFilesGo (net : Http) (overwrite : Bool) (outDir : String) :
    FS → List String → FS × List DlOutcome
  | fs, [] => (fs, [])
  | fs, url :: rest =>
    let s := downloadOne net overwrite outDir fs url
    let t := downloadFilesGo net overwrite outDir s.1 rest
    (t.1, s.2.1 :: t.2)

/-- Model of EPRX.download_files (source lines 183-201): make the output
directory, then attempt every link in order. -/
def download_files (net : Http) (fs : FS) (links : List String) (outDir : String)
    (overwrite : Bool) : FS × List DlOutcome :=
  downloadFilesGo net overwrite outDir (fsMkdir fs outDir) links

/-- Model of EPRX._download_zip (source lines 49-74).  The function has no
try/except around requests.get, so a transport exception propagates
(Except.error).  The Referer header has no observable effect here and is
dropped. -/
def download_zip (net : Http) (dirName dateStr outPath : String) (overwrite : Bool)
    (fs : FS) : Except String (FS × DlOutcome × Nat) :=
  let dateS := strReplace dateStr "/" ""
  let fileName := dirName ++ "_" ++ dateS ++ ".zip"
  let url := urljoin RESULTS_PAGE fileName
  if fsExists fs outPath && !overwrite then Except.ok (fs, DlOutcome.skipped, 0)
  else
    match net url with
    | Except.error e => Except.error e
    | Except.ok r =>
      if r.ok && decide (100 < r.content.length) then
        Except.ok (fsWrite (fsMkdir fs (dirname outPath)) outPath r.content,
          DlOutcome.downloaded, 1)
      else Except.ok (fs, DlOutcome.failed, 1)

/- Zip extraction model. -/

/-- One member of an archive. -/
structure ZipEntry where
  name : String
  content : Bytes
deriving Repr, DecidableEq

/-- The zipfile library: archive bytes either fail to open (BadZipFile and
friends, Except.error) or list their entries. -/
abbrev ZipReader := Bytes → Except String (List ZipEntry)

/-- The path an extracted entry is written to. -/
def entryPath (extractDir : String) (e : ZipEntry) : String :=
  extractDir ++ "/" ++ e.name

/-- Model of ZipFile.extractall: write every entry under the directory. -/
def writeEntries (extractDir : String) (fs : FS) (entries : List ZipEntry) : FS :=
  entries.foldl (fun f e => fsWrite f (entryPath extractDir e) e.content) fs

/-- Model of EPRX._extract_zip (source lines 238-253): make the destination
directory (splitext base of the path), then open and extract; any failure is
caught and returns with the archive untouched; on success the archive is
removed when removeArchive is set. -/
def extract_zip (zipRead : ZipReader) (fs : FS) (path : String)
    (removeArchive : Bool) : FS :=
  let extractDir := splitextFst path
  let fs1 := fsMkdir fs extractDir
  match fsRead fs1 path with
  | none => fs1
  | some bytes =>
    match zipRead bytes with
    | Except.error _ => fs1
    | Except.ok entries =>
      let fs2 := writeEntries extractDir fs1 entries
      if removeArchive then fsRemove fs2 path else fs2

/- Encoding conversion model. -/

/-- Case-insensitive .csv test of a path, matching name.lower().endswith. -/
def isCsvName (p : String) : Bool :=
  List.isSuffixOf ".csv".data (p.data.map Char.toLower)

/-- Whether a path lies (at any depth) under a directory, the set os.walk
visits in the flat-path filesystem model. -/
def isUnder (d p : String) : Bool :=
  List.isPrefixOf (d.data ++ ['/']) p.data

/-- Model of EPRX._convert_csv_encoding (source lines 263-280): if the
directory does not exist nothing happens; otherwise every file under it whose
name ends in .csv case-insensitively is rewritten in place as
encode (decode content); every other file is untouched. -/
def convert_csv_encoding (decode : Bytes → List Char) (encode : List Char → Bytes)
    (fs : FS) (directory : String) : FS :=
  if fsIsDir fs directory then
    ⟨fs.files.map (fun e =>
      (e.1, if isUnder directory e.1 && isCsvName e.1 then encode (decode e.2) else e.2)),
      fs.dirs⟩
  else fs

/-- A codec for reading: given the remaining bytes, either decode one
character and say how many bytes it consumed, or fail on a malformed
sequence. -/
abbrev CodecStep := Bytes → Option (Char × Nat)

/-- Decoding loop with explicit fuel (structural recursion so that every use
reduces in the kernel; fuel equal to the byte count always suffices since
each step consumes at least one byte). -/
def decodeIgnoreFuel (step : CodecStep) : Nat → Bytes → List Char
  | _, [] => []
  | 0, _ => []
  | fuel + 1, b :: rest =>
    match step (b :: rest) with
    | some p => p.1 :: decodeIgnoreFuel step fuel ((b :: rest).drop (max p.2 1))
    | none => decodeIgnoreFuel step fuel rest

/-- Model of decoding with errors="ignore" (source line 274): a malformed
byte is dropped and decoding continues; the function is total, it never
fails. -/
def decodeIgnore (step : CodecStep) (l : Bytes) : List Char :=
  decodeIgnoreFuel step l.length l

/- Runner model (run_eprx_results.py). -/

/-- The whitespace Python int() strips. -/
def isPySpace (c : Char) : Bool :=
  c == ' ' || c == '\t' || c == '\n' || c == '\r'

/-- Digits of a Python int literal after the sign: decimal digits with single
underscores allowed between digits. -/
def parseDigits : List Char → Nat → Option Nat
  | [], acc => some acc
  | '_' :: c :: rest, acc =>
    if c.isDigit then parseDigits rest (acc * 10 + (c.toNat - 48)) else none
  | c :: rest, acc =>
    if c.isDigit then parseDigits rest (acc * 10 + (c.toNat - 48)) else none

/-- Model of Python int(str): strip whitespace, optional sign, then decimal
digits with optional single separating underscores; anything else raises
ValueError (none). -/
def pythonInt (s : String) : Option Int :=
  let t := ((s.data.dropWhile isPySpace).reverse.dropWhile isPySpace).reverse
  match t with
  | [] => none
  | '-' :: c :: rest =>
    if c.isDigit then (parseDigits (c :: rest) 0).map (fun n => -(n : Int)) else none
  | '+' :: c :: rest =>
    if c.isDigit then (parseDigits (c :: rest) 0).map (fun n => (n : Int)) else none
  | c :: rest =>
    if c.isDigit then (parseDigits (c :: rest) 0).map (fun n => (n : Int)) else none

/-- The fiscal cutoff month hard-coded in run_eprx_results.py line 17. -/
def fiscalCutoffMonth : Int := 4

/-- The default fiscal year of run_eprx_results.py line 17: the current year
from the cutoff month on, the previous year before it. -/
def defaultFiscalYear (todayYear todayMonth : Int) : Int :=
  if todayMonth ≥ fiscalCutoffMonth then todayYear else todayYear - 1

/-- Observable outcome of one program run. -/
structure RunOutcome where
  exitCode : Nat
  yearUsed : Option Int
  networkActivity : Bool
deriving Repr, DecidableEq

/-- Model of the __main__ block of run_eprx_results.py (lines 5-21).  args is
sys.argv without the script name, so len(sys.argv) > 2 is args.length > 1.
A run that reaches scraper.results performs network activity and, on the
normal completion the claim speaks of, falls off the end of the script with
exit status 0. -/
def runMain (todayYear todayMonth : Int) (args : List String) : RunOutcome :=
  if 1 < args.length then ⟨1, none, false⟩
  else
    match args with
    | [] => ⟨0, some (defaultFiscalYear todayYear todayMonth), true⟩
    | a :: _ =>
      match pythonInt a with
      | none => ⟨1, none, false⟩
      | some y => ⟨0, some y, true⟩

/- Concrete fixtures used by counterexamples and witnesses. -/

/-- A table whose single row has anchors but no th[scope=row] year label. -/
def c1CexRows : List Tr := [⟨none, ["x.zip"]⟩]

/-- A document with the final-results heading and the label-free row table. -/
def c1CexDoc : List Node := [Node.h2 (tableTitle "final"), Node.table c1CexRows]

/-- Fixture rows: a 2024 row with two anchors and a 2023 row with one. -/
def c1WitRows : List Tr :=
  [⟨some "2024年度", ["a.zip", "b.zip"]⟩, ⟨some "2023年度", ["c.zip"]⟩]

/-- Fixture document for the fiscal-year filtering witness. -/
def c1WitDoc : List Node := [Node.h2 (tableTitle "final"), Node.table c1WitRows]

/-- A document whose only heading is not a results heading. -/
def c2WitDoc : List Node := [Node.h2 "別の見出し", Node.other]

/-- A document with the final-results heading but no table after it. -/
def c2WitDocNoTable : List Node := [Node.h2 (tableTitle "final"), Node.other]

/-- A filesystem already holding both destination files of the C3 witness. -/
def c3WitFs : FS := ⟨[("zip/a.zip", [1, 2, 3]), ("out/f.zip", [9])], []⟩

/-- A transport that always raises, showing no request can be made. -/
def c3WitNet : Http := fun _ => Except.error "connection refused"

/-- A 100-byte body: exactly at the threshold the claim misstates. -/
def c4Body : Bytes := List.replicate 100 0

/-- A transport answering success status with the 100-byte body. -/
def c4Net : Http := fun _ => Except.ok ⟨true, c4Body⟩

/-- The URL fetched in the C4 counterexample. -/
def c4Url : String := "https://www.eprx.or.jp/information/a.zip"

/-- A transport answering success status with a 150-byte body. -/
def c4WitNet : Http := fun _ => Except.ok ⟨true, List.replicate 150 7⟩

/-- The response of c4WitNet. -/
def c4WitResp : Resp := ⟨true, List.replicate 150 7⟩

/-- A zip reader recognising [1, 2, 3] as an archive of two CSV entries. -/
def c5Zr : ZipReader := fun b =>
  if b == [1, 2, 3] then Except.ok [⟨"a.csv", [7, 8]⟩, ⟨"b.csv", [9]⟩]
  else Except.error "BadZipFile"

/-- The entries of the C5 witness archive. -/
def c5Entries : List ZipEntry := [⟨"a.csv", [7, 8]⟩, ⟨"b.csv", [9]⟩]

/-- A filesystem holding the valid witness archive. -/
def c5Fs : FS := ⟨[("zip/foo.zip", [1, 2, 3])], ["zip"]⟩

/-- A filesystem holding a corrupt archive (bytes the reader rejects). -/
def c5FsBad : FS := ⟨[("zip/bad.zip", [9, 9])], ["zip"]⟩

/-- An ASCII-only decoding step: bytes above 127 are malformed. -/
def c6Step : CodecStep := fun l =>
  match l with
  | [] => none
  | b :: _ => if b < 128 then some (Char.ofNat b, 1) else none

/-- An encoder writing each character as its code point. -/
def c6Enc : List Char → Bytes := fun cs => cs.map Char.toNat

/-- A tree with a CSV file (holding one malformed byte), a non-CSV file and
a CSV file outside the converted directory. -/
def c6Fs : FS :=
  ⟨[("zip/sub/a.csv", [65, 200, 66]), ("zip/b.txt", [1]), ("other/c.csv", [2])], ["zip"]⟩

/-- A transport failing on exactly one URL and succeeding elsewhere. -/
def c9Net : Http := fun u =>
  if u == "https://x/a.zip" then Except.error "boom"
  else Except.ok ⟨true, List.replicate 200 7⟩

/-- A zip reader rejecting everything, for the failed-extraction witness. -/
def c10Zr : ZipReader := fun _ => Except.error "BadZipFile"

/-- A filesystem holding only the corrupt archive of the C10 witness. -/
def c10Fs : FS := ⟨[("zip/bad.zip", [4, 5])], ["zip"]⟩

end Eprx

namespace Eprx

/- Helper lemmas about the filesystem model. -/

theorem fsRead_fsMkdir (fs : FS) (d p : String) :
    fsRead (fsMkdir fs d) p = fsRead fs p := rfl

theorem fsWrite_dirs (fs : FS) (p : String) (c : Bytes) :
    (fsWrite fs p c).dirs = fs.dirs := rfl

theorem fsRemove_dirs (fs : FS) (p : String) :
    (fsRemove fs p).dirs = fs.dirs := rfl

theorem find_filter_self (p : String) (l : List (String × Bytes)) :
    (l.filter (fun e => e.1 != p)).find? (fun e => e.1 == p) = none := by
  induction l with
  | nil => rfl
  | cons e rest ih =>
    by_cases h : e.1 = p
    · rw [List.filter_cons, if_neg (by simp [h])]
      exact ih
    · rw [List.filter_cons, if_pos (by simp [h]),
        List.find?_cons_of_neg _ (by simp [h])]
      exact ih

theorem find_filter_ne (p q : String) (h : q ≠ p) (l : List (String × Bytes)) :
    (l.filter (fun e => e.1 != p)).find? (fun e => e.1 == q) =
      l.find? (fun e => e.1 == q) := by
  induction l with
  | nil => rfl
  | cons e rest ih =>
    by_cases h1 : e.1 = p
    · have h2 : e.1 ≠ q := fun hq => h (hq ▸ h1)
      rw [List.filter_cons, if_neg (by simp [h1]),
        List.find?_cons_of_neg _ (by simp [h2])]
      exact ih
    · by_cases h2 : e.1 = q
      · rw [List.filter_cons, if_pos (by simp [h1]),
          List.find?_cons_of_pos _ (by simp [h2]),
          List.find?_cons_of_pos _ (by simp [h2])]
      · rw [List.filter_cons, if_pos (by simp [h1]),
          List.find?_cons_of_neg _ (by simp [h2]),
          List.find?_cons_of_neg _ (by simp [h2])]
        exact ih

theorem fsRead_fsWrite_self (fs : FS) (p : String) (c : Bytes) :
    fsRead (fsWrite fs p c) p = some c := by
  simp [fsRead, fsWrite, List.find?_cons_of_pos]

theorem fsRead_fsWrite_ne (fs : FS) (p q : String) (c : Bytes) (h : q ≠ p) :
    fsRead (fsWrite fs p c) q = fsRead fs q := by
  unfold fsRead fsWrite
  rw [List.find?_cons_of_neg _ (by simp [Ne.symm h]),
    find_filter_ne p q h]

theorem fsRead_fsRemove_self (fs : FS) (p : String) :
    fsRead (fsRemove fs p) p = none := by
  simp [fsRead, fsRemove, find_filter_self]

theorem fsRead_fsRemove_ne (fs : FS) (p q : String) (h : q ≠ p) :
    fsRead (fsRemove fs p) q = fsRead fs q := by
  simp [fsRead, fsRemove, find_filter_ne p q h]

theorem writeEntries_dirs (d : String) (entries : List ZipEntry) (fs : FS) :
    (writeEntries d fs entries).dirs = fs.dirs := by
  induction entries generalizing fs with
  | nil => rfl
  | cons e rest ih => simpa [writeEntries] using ih (fsWrite fs (entryPath d e) e.content)

theorem fsRead_writeEntries_of_ne (d : String) (entries : List ZipEntry) (fs : FS)
    (q : String) (h : ∀ e ∈ entries, entryPath d e ≠ q) :
    fsRead (writeEntries d fs entries) q = fsRead fs q := by
  induction entries generalizing fs with
  | nil => rfl
  | cons e rest ih =>
    have h1 : q ≠ entryPath d e := fun hq => h e (List.mem_cons_self e rest) hq.symm
    calc fsRead (writeEntries d fs (e :: rest)) q
        = fsRead (writeEntries d (fsWrite fs (entryPath d e) e.content) rest) q := rfl
      _ = fsRead (fsWrite fs (entryPath d e) e.content) q :=
          ih _ (fun a ha => h a (List.mem_cons_of_mem e ha))
      _ = fsRead fs q := fsRead_fsWrite_ne fs (entryPath d e) q e.content h1

theorem fsRead_writeEntries_mem (d : String) (entries : List ZipEntry) (fs : FS)
    (e : ZipEntry) (hmem : e ∈ entries) (hnd : (entries.map (entryPath d)).Nodup) :
    fsRead (writeEntries d fs entries) (entryPath d e) = some e.content := by
  induction entries generalizing fs with
  | nil => cases hmem
  | cons a rest ih =>
    rcases List.mem_cons.mp hmem with h | h
    · subst h
      obtain ⟨hne, -⟩ :
          (∀ x ∈ rest, ¬entryPath d x = entryPath d e) ∧
            (List.map (entryPath d) rest).Nodup := by
        simpa using hnd
      calc fsRead (writeEntries d fs (e :: rest)) (entryPath d e)
          = fsRead (writeEntries d (fsWrite fs (entryPath d e) e.content) rest)
              (entryPath d e) := rfl
        _ = fsRead (fsWrite fs (entryPath d e) e.content) (entryPath d e) :=
            fsRead_writeEntries_of_ne d rest _ _ hne
        _ = some e.content := fsRead_fsWrite_self _ _ _
    · obtain ⟨-, hnd1⟩ :
          (∀ x ∈ rest, ¬entryPath d x = entryPath d a) ∧
            (List.map (entryPath d) rest).Nodup := by
        simpa using hnd
      exact ih (fsWrite fs (entryPath d a) a.content) h hnd1

/- Helper lemmas about parse_links. -/

theorem rowSkipped_eq_not_keepRow (year : Option String) (tr : Tr) :
    rowSkipped year tr = !(keepRow year tr) := by
  unfold rowSkipped keepRow
  rcases tr.thScopeRow with _ | t <;> rcases year with _ | y <;> simp [bne]

theorem collectLinks_eq_matchingLinks (baseUrl : String) (year : Option String)
    (rows : List Tr) :
    collectLinks baseUrl year rows = matchingLinks baseUrl year rows := by
  induction rows with
  | nil => rfl
  | cons tr rest ih =>
    by_cases h : keepRow year tr = true
    · simp [collectLinks, matchingLinks, rowLinks, rowSkipped_eq_not_keepRow, h,
        List.filter_cons] at *
      exact ih
    · simp only [Bool.not_eq_true] at h
      simp [collectLinks, matchingLinks, rowLinks, rowSkipped_eq_not_keepRow, h,
        List.filter_cons] at *
      exact ih

/- Helper lemma about the rewrite map of convert_csv_encoding. -/

theorem find_map_kv (l : List (String × Bytes)) (q : String) (h : String → Bytes → Bytes) :
    (l.map (fun e => (e.1, h e.1 e.2))).find? (fun e => e.1 == q) =
      (l.find? (fun e => e.1 == q)).map (fun e => (e.1, h e.1 e.2)) := by
  induction l with
  | nil => rfl
  | cons e rest ih =>
    by_cases hq : e.1 = q
    · rw [List.map_cons, List.find?_cons_of_pos _ (by simp [hq]),
        List.find?_cons_of_pos _ (by simp [hq])]
      rfl
    · rw [List.map_cons, List.find?_cons_of_neg _ (by simp [hq]),
        List.find?_cons_of_neg _ (by simp [hq])]
      exact ih

theorem downloadFilesGo_length (net : Http) (overwrite : Bool) (outDir : String)
    (links : List String) (fs : FS) :
    (downloadFilesGo net overwrite outDir fs links).2.length = links.length := by
  induction links generalizing fs with
  | nil => rfl
  | cons url rest ih => simpa [downloadFilesGo] using ih _

end Eprx

namespace Eprx

/- Claim theorems. -/

/-- C1, counterexample: the claim says parse_links returns exactly the
anchors of the rows whose year label (with 年度 removed) equals the
requested year.  On a document whose table row carries anchors but no
th[scope=row] year label, parse_links returns that row's link while the
claimed result set is empty: the claim as stated is false. -/
theorem c1_parse_links_counterexample :
    parse_links BASE_URL c1CexDoc (some "2024") "final" =
      ["https://www.eprx.or.jp/information/x.zip"] ∧
    claimedLinks BASE_URL "2024" c1CexRows = [] := by
  constructor
  · rfl
  · rfl

/-- C1, amended: for every document in which the heading for the requested
report kind is found and a table follows it, parse_links returns exactly the
absolute URLs of the anchors of the kept rows in document order, where a row
is kept when it has no year label, or the provided year string is empty, or
the row's label with every occurrence of "年度" removed equals the year. -/
theorem c1_parse_links_matching_rows (baseUrl : String) (doc : List Node)
    (year : Option String) (rt : String) (rest : List Node) (rows : List Tr)
    (h1 : findH2 (tableTitle rt) doc = some rest)
    (h2 : findNextTable rest = some rows) :
    parse_links baseUrl doc year rt = matchingLinks baseUrl year rows := by
  simp only [parse_links, h1, h2]
  exact collectLinks_eq_matchingLinks baseUrl year rows

/-- C1, witness: on the fixture page with a 2024 row holding a.zip and b.zip
and a 2023 row holding c.zip, requesting year 2024 yields exactly the two
2024 links in document order. -/
theorem c1_parse_links_witness :
    findH2 (tableTitle "final") c1WitDoc = some [Node.table c1WitRows] ∧
    findNextTable [Node.table c1WitRows] = some c1WitRows ∧
    parse_links BASE_URL c1WitDoc (some "2024") "final" =
      matchingLinks BASE_URL (some "2024") c1WitRows ∧
    matchingLinks BASE_URL (some "2024") c1WitRows =
      ["https://www.eprx.or.jp/information/a.zip",
        "https://www.eprx.or.jp/information/b.zip"] :=
  ⟨rfl, rfl,
    c1_parse_links_matching_rows BASE_URL c1WitDoc (some "2024") "final"
      [Node.table c1WitRows] c1WitRows rfl rfl,
    by decide⟩

/-- C2: when no h2 matches the requested report kind's heading, or no table
follows the matching heading, parse_links returns the empty list; being a
total function of the document, it raises no exception. -/
theorem c2_parse_links_empty (baseUrl : String) (doc : List Node)
    (year : Option String) (rt : String) :
    (findH2 (tableTitle rt) doc = none → parse_links baseUrl doc year rt = []) ∧
    (∀ rest, findH2 (tableTitle rt) doc = some rest → findNextTable rest = none →
      parse_links baseUrl doc year rt = []) := by
  constructor
  · intro h
    simp [parse_links, h]
  · intro rest h1 h2
    simp [parse_links, h1, h2]

/-- C2, witness: a page without the final-results heading yields no links,
and so does a page whose heading is followed by no table. -/
theorem c2_parse_links_witness :
    findH2 (tableTitle "final") c2WitDoc = none ∧
    parse_links BASE_URL c2WitDoc (some "2024") "final" = [] ∧
    findH2 (tableTitle "final") c2WitDocNoTable = some [Node.other] ∧
    findNextTable [Node.other] = none ∧
    parse_links BASE_URL c2WitDocNoTable (some "2024") "final" = [] :=
  ⟨rfl,
    (c2_parse_links_empty BASE_URL c2WitDoc (some "2024") "final").1 rfl,
    rfl, rfl,
    (c2_parse_links_empty BASE_URL c2WitDocNoTable (some "2024") "final").2
      [Node.other] rfl rfl⟩

end Eprx

namespace Eprx

/-- C3: with overwrite disabled and an existing destination, both
download_files (on one link) and _download_zip return the unchanged
filesystem, report skipped, and perform zero network requests. -/
theorem c3_skip_no_network (net : Http) (fs : FS)
    (outDir url dirName dateStr outPath : String)
    (h1 : fsExists fs (joinPath outDir (basename url)) = true)
    (h2 : fsExists fs outPath = true) :
    downloadOne net false outDir fs url = (fs, DlOutcome.skipped, 0) ∧
    download_zip net dirName dateStr outPath false fs =
      Except.ok (fs, DlOutcome.skipped, 0) := by
  constructor
  · simp [downloadOne, h1]
  · simp [download_zip, h2]

/-- C3, witness: a filesystem holding both destinations, with a transport
that would fail on any request, still reports skipped with zero requests. -/
theorem c3_skip_witness :
    fsExists c3WitFs
      (joinPath "zip" (basename "https://www.eprx.or.jp/information/a.zip")) = true ∧
    fsExists c3WitFs "out/f.zip" = true ∧
    downloadOne c3WitNet false "zip" c3WitFs
      "https://www.eprx.or.jp/information/a.zip" = (c3WitFs, DlOutcome.skipped, 0) ∧
    download_zip c3WitNet "trading" "2024/04/01" "out/f.zip" false c3WitFs =
      Except.ok (c3WitFs, DlOutcome.skipped, 0) :=
  ⟨by decide, by decide,
    (c3_skip_no_network c3WitNet c3WitFs "zip"
      "https://www.eprx.or.jp/information/a.zip" "trading" "2024/04/01" "out/f.zip"
      (by decide) (by decide)).1,
    (c3_skip_no_network c3WitNet c3WitFs "zip"
      "https://www.eprx.or.jp/information/a.zip" "trading" "2024/04/01" "out/f.zip"
      (by decide) (by decide)).2⟩

/-- C4, counterexample: the claim says a successful status with a body of at
least 100 bytes is written.  The code requires strictly more than 100 bytes
(len(r.content) > 100), so a success response whose body is exactly 100
bytes is reported failed and nothing is written: the claim as stated is
false. -/
theorem c4_threshold_counterexample :
    c4Net c4Url = Except.ok ⟨true, c4Body⟩ ∧
    c4Body.length = 100 ∧
    downloadOne c4Net true "zip" fsEmpty c4Url = (fsEmpty, DlOutcome.failed, 1) := by
  refine ⟨rfl, by decide, by decide⟩

/-- C4, amended: a response body of at most 100 bytes is treated as failed
and no file is written, even when the status is a success; a success status
with a body of strictly more than 100 bytes is written to the destination.
Both download_files (per link) and _download_zip behave this way. -/
theorem c4_threshold (net : Http) (fs : FS)
    (outDir url dirName dateStr outPath : String) (r : Resp)
    (hnet : net url = Except.ok r)
    (hzip : net (urljoin RESULTS_PAGE
      (dirName ++ "_" ++ strReplace dateStr "/" "" ++ ".zip")) = Except.ok r) :
    (r.content.length ≤ 100 →
      downloadOne net true outDir fs url = (fs, DlOutcome.failed, 1) ∧
      download_zip net dirName dateStr outPath true fs =
        Except.ok (fs, DlOutcome.failed, 1)) ∧
    (r.ok = true → 100 < r.content.length →
      downloadOne net true outDir fs url =
        (fsWrite fs (joinPath outDir (basename url)) r.content,
          DlOutcome.downloaded, 1) ∧
      download_zip net dirName dateStr outPath true fs =
        Except.ok (fsWrite (fsMkdir fs (dirname outPath)) outPath r.content,
          DlOutcome.downloaded, 1)) := by
  constructor
  · intro hlen
    have hfalse : decide (100 < r.content.length) = false := by
      simp
      omega
    constructor
    · simp [downloadOne, hnet, hfalse]
    · simp [download_zip, hzip, hfalse]
  · intro hok hlen
    have htrue : decide (100 < r.content.length) = true := by
      simpa using hlen
    constructor
    · simp [downloadOne, hnet, hok, htrue]
    · simp [download_zip, hzip, hok, htrue]

set_option maxRecDepth 4000 in
/-- C4, witness: a 150-byte success body is written by both operations, and
a 100-byte success body is reported failed with the filesystem unchanged. -/
theorem c4_threshold_witness :
    (100 < c4WitResp.content.length) ∧
    (downloadOne c4WitNet true "zip" fsEmpty c4Url =
      (fsWrite fsEmpty (joinPath "zip" (basename c4Url)) c4WitResp.content,
        DlOutcome.downloaded, 1) ∧
      download_zip c4WitNet "trading" "2024/04/01" "out/f.zip" true fsEmpty =
        Except.ok (fsWrite (fsMkdir fsEmpty (dirname "out/f.zip")) "out/f.zip"
          c4WitResp.content, DlOutcome.downloaded, 1)) ∧
    (c4Body.length ≤ 100 ∧
      downloadOne c4Net true "zip" fsEmpty c4Url = (fsEmpty, DlOutcome.failed, 1)) :=
  ⟨by decide,
    (c4_threshold c4WitNet fsEmpty "zip" c4Url "trading" "2024/04/01" "out/f.zip"
      c4WitResp rfl rfl).2 rfl (by decide),
    by decide,
    ((c4_threshold c4Net fsEmpty "zip" c4Url "trading" "2024/04/01" "out/f.zip"
      ⟨true, c4Body⟩ rfl rfl).1 (by decide)).1⟩

/-- C5: when the archive opens and all entries extract (and removal is not
opted out), the .zip file no longer exists afterwards and the directory
named after the archive's base name exists and holds every entry's content;
when extraction fails, the archive file still holds its original bytes.  The
side conditions say the extracted paths are pairwise distinct and none
collides with the archive path, as for a real archive. -/
theorem c5_extract_keeps_or_removes (zipRead : ZipReader) (path : String) :
    (∀ fs bytes entries, fsRead fs path = some bytes →
      zipRead bytes = Except.ok entries →
      (entries.map (entryPath (splitextFst path))).Nodup →
      (∀ e ∈ entries, entryPath (splitextFst path) e ≠ path) →
      fsRead (extract_zip zipRead fs path true) path = none ∧
      fsIsDir (extract_zip zipRead fs path true) (splitextFst path) = true ∧
      (∀ e ∈ entries, fsRead (extract_zip zipRead fs path true)
        (entryPath (splitextFst path) e) = some e.content)) ∧
    (∀ fs bytes msg, fsRead fs path = some bytes →
      zipRead bytes = Except.error msg →
      fsRead (extract_zip zipRead fs path true) path = some bytes) := by
  constructor
  · intro fs bytes entries hread hok hnd hne
    have hread1 : fsRead (fsMkdir fs (splitextFst path)) path = some bytes := by
      rw [fsRead_fsMkdir]
      exact hread
    simp only [extract_zip, hread1, hok, if_true]
    refine ⟨fsRead_fsRemove_self _ _, ?_, ?_⟩
    · simp [fsIsDir, fsRemove_dirs, writeEntries_dirs, fsMkdir]
    · intro e he
      rw [fsRead_fsRemove_ne _ _ _ (hne e he),
        fsRead_writeEntries_mem (splitextFst path) entries _ e he hnd]
  · intro fs bytes msg hread herr
    have hread1 : fsRead (fsMkdir fs (splitextFst path)) path = some bytes := by
      rw [fsRead_fsMkdir]
      exact hread
    simp only [extract_zip, hread1, herr]

/-- C5, witness: extracting the valid two-entry archive zip/foo.zip removes
the archive and leaves both entries under zip/foo; extracting the corrupt
archive zip/bad.zip leaves its bytes on disk. -/
theorem c5_extract_witness :
    fsRead c5Fs "zip/foo.zip" = some [1, 2, 3] ∧
    c5Zr [1, 2, 3] = Except.ok c5Entries ∧
    splitextFst "zip/foo.zip" = "zip/foo" ∧
    (fsRead (extract_zip c5Zr c5Fs "zip/foo.zip" true) "zip/foo.zip" = none ∧
      fsIsDir (extract_zip c5Zr c5Fs "zip/foo.zip" true)
        (splitextFst "zip/foo.zip") = true ∧
      (∀ e ∈ c5Entries, fsRead (extract_zip c5Zr c5Fs "zip/foo.zip" true)
        (entryPath (splitextFst "zip/foo.zip") e) = some e.content)) ∧
    fsRead c5FsBad "zip/bad.zip" = some [9, 9] ∧
    c5Zr [9, 9] = Except.error "BadZipFile" ∧
    fsRead (extract_zip c5Zr c5FsBad "zip/bad.zip" true) "zip/bad.zip" =
      some [9, 9] :=
  ⟨by decide, rfl, by decide,
    (c5_extract_keeps_or_removes c5Zr "zip/foo.zip").1 c5Fs [1, 2, 3] c5Entries
      (by decide) rfl (by decide) (by decide),
    by decide, rfl,
    (c5_extract_keeps_or_removes c5Zr "zip/bad.zip").2 c5FsBad [9, 9] "BadZipFile"
      (by decide) rfl⟩

end Eprx

namespace Eprx

/-- C6: on an existing directory, the conversion rewrites exactly the files
under the directory tree whose name ends in .csv case-insensitively, each in
place as encode (decode content); every other file keeps its content.  The
decoder models errors="ignore": a malformed head byte is dropped and
decoding continues, so reading never fails. -/
theorem c6_convert_csv_only (step : CodecStep) (encode : List Char → Bytes)
    (fs : FS) (d : String) (hd : fsIsDir fs d = true) :
    (∀ p, fsRead (convert_csv_encoding (decodeIgnore step) encode fs d) p =
      if isUnder d p && isCsvName p then
        (fsRead fs p).map (fun c => encode (decodeIgnore step c))
      else fsRead fs p) ∧
    (∀ b rest, step (b :: rest) = none →
      decodeIgnore step (b :: rest) = decodeIgnore step rest) := by
  constructor
  · intro p
    simp only [convert_csv_encoding, hd, if_true]
    simp only [fsRead]
    rw [find_map_kv fs.files p
      (fun k v => if isUnder d k && isCsvName k then encode (decodeIgnore step v) else v)]
    cases hfind : fs.files.find? (fun e => e.1 == p) with
    | none => simp
    | some e =>
      have hkey : e.1 = p := by
        have h1 := List.find?_some hfind
        simpa using h1
      simp only [Option.map_some']
      rw [hkey]
      cases hc : isUnder d p && isCsvName p with
      | true => simp
      | false => simp
  · intro b rest h
    simp [decodeIgnore, decodeIgnoreFuel, h]

/-- C6, witness: in a tree with a CSV file under the directory (whose bytes
include one malformed byte, dropped by the decoder), a non-CSV file under
it, and a CSV file outside it, only the first file's content changes. -/
theorem c6_convert_witness :
    fsIsDir c6Fs "zip" = true ∧
    (∀ p, fsRead (convert_csv_encoding (decodeIgnore c6Step) c6Enc c6Fs "zip") p =
      if isUnder "zip" p && isCsvName p then
        (fsRead c6Fs p).map (fun c => c6Enc (decodeIgnore c6Step c))
      else fsRead c6Fs p) ∧
    (∀ b rest, c6Step (b :: rest) = none →
      decodeIgnore c6Step (b :: rest) = decodeIgnore c6Step rest) ∧
    c6Enc (decodeIgnore c6Step [65, 200, 66]) = [65, 66] ∧
    fsRead (convert_csv_encoding (decodeIgnore c6Step) c6Enc c6Fs "zip")
      "zip/sub/a.csv" = some [65, 66] ∧
    fsRead (convert_csv_encoding (decodeIgnore c6Step) c6Enc c6Fs "zip")
      "zip/b.txt" = some [1] ∧
    fsRead (convert_csv_encoding (decodeIgnore c6Step) c6Enc c6Fs "zip")
      "other/c.csv" = some [2] :=
  ⟨by decide,
    (c6_convert_csv_only c6Step c6Enc c6Fs "zip" (by decide)).1,
    (c6_convert_csv_only c6Step c6Enc c6Fs "zip" (by decide)).2,
    by decide, by decide, by decide, by decide⟩

/-- C7: with no fiscal-year argument, the program runs with the default
fiscal year, the current calendar year when the current month is at or past
the cutoff month (4) and the previous calendar year otherwise. -/
theorem c7_default_year (todayYear todayMonth : Int) :
    runMain todayYear todayMonth [] =
      ⟨0, some (defaultFiscalYear todayYear todayMonth), true⟩ ∧
    defaultFiscalYear todayYear todayMonth =
      (if todayMonth ≥ fiscalCutoffMonth then todayYear else todayYear - 1) := by
  exact ⟨rfl, rfl⟩

/-- C8: a non-integer year argument or too many arguments exits with status
1 before any network activity; a valid or absent year argument proceeds to
the scrape and, on normal completion, exits with status 0. -/
theorem c8_invalid_arguments (todayYear todayMonth : Int) :
    (∀ a : String, pythonInt a = none →
      runMain todayYear todayMonth [a] = ⟨1, none, false⟩) ∧
    (∀ args : List String, 1 < args.length →
      runMain todayYear todayMonth args = ⟨1, none, false⟩) ∧
    (∀ (a : String) (n : Int), pythonInt a = some n →
      runMain todayYear todayMonth [a] = ⟨0, some n, true⟩) ∧
    runMain todayYear todayMonth [] =
      ⟨0, some (defaultFiscalYear todayYear todayMonth), true⟩ := by
  refine ⟨?_, ?_, ?_, rfl⟩
  · intro a h
    simp [runMain, h]
  · intro args h
    simp [runMain, h]
  · intro a n h
    simp [runMain, h]

/-- C8, witness: the malformed argument 20x4 exits with status 1 and no
network activity, two arguments also exit with status 1, and the argument
2024 runs the scrape with that year and exits with status 0. -/
theorem c8_invalid_arguments_witness :
    pythonInt "20x4" = none ∧
    runMain 2025 10 ["20x4"] = ⟨1, none, false⟩ ∧
    runMain 2025 10 ["2024", "final"] = ⟨1, none, false⟩ ∧
    pythonInt "2024" = some 2024 ∧
    runMain 2025 10 ["2024"] = ⟨0, some 2024, true⟩ :=
  ⟨by decide,
    (c8_invalid_arguments 2025 10).1 "20x4" (by decide),
    (c8_invalid_arguments 2025 10).2.1 ["2024", "final"] (by decide),
    by decide,
    (c8_invalid_arguments 2025 10).2.2.1 "2024" 2024 (by decide)⟩

/-- C9: a transport exception or an unusable response for one link leaves
the filesystem unchanged for that link, records its outcome, and the loop
continues with exactly the remaining links (one outcome per attempted
link). -/
theorem c9_per_link_isolation (net : Http) (fs : FS) (outDir url : String)
    (rest : List String) :
    (∀ msg, net url = Except.error msg →
      downloadFilesGo net true outDir fs (url :: rest) =
        ((downloadFilesGo net true outDir fs rest).1,
          DlOutcome.errored :: (downloadFilesGo net true outDir fs rest).2)) ∧
    (∀ r, net url = Except.ok r →
      (r.ok && decide (100 < r.content.length)) = false →
      downloadFilesGo net true outDir fs (url :: rest) =
        ((downloadFilesGo net true outDir fs rest).1,
          DlOutcome.failed :: (downloadFilesGo net true outDir fs rest).2)) ∧
    (∀ (links : List String) (fs0 : FS),
      (downloadFilesGo net true outDir fs0 links).2.length = links.length) := by
  refine ⟨?_, ?_, fun links fs0 => downloadFilesGo_length net true outDir links fs0⟩
  · intro msg h
    simp [downloadFilesGo, downloadOne, h]
  · intro r h hcond
    simp [downloadFilesGo, downloadOne, h, hcond]

set_option maxRecDepth 4000 in
/-- C9, witness: with a transport failing on the first of two links, the
first is recorded as errored with nothing written, and the second link is
still attempted and downloaded. -/
theorem c9_per_link_isolation_witness :
    c9Net "https://x/a.zip" = Except.error "boom" ∧
    downloadFilesGo c9Net true "zip" fsEmpty ["https://x/a.zip", "https://x/b.zip"] =
      ((downloadFilesGo c9Net true "zip" fsEmpty ["https://x/b.zip"]).1,
        DlOutcome.errored ::
          (downloadFilesGo c9Net true "zip" fsEmpty ["https://x/b.zip"]).2) ∧
    (downloadFilesGo c9Net true "zip" fsEmpty ["https://x/b.zip"]).2 =
      [DlOutcome.downloaded] :=
  ⟨rfl,
    (c9_per_link_isolation c9Net fsEmpty "zip" "https://x/a.zip"
      ["https://x/b.zip"]).1 "boom" rfl,
    by decide⟩

/-- C10: _extract_zip creates the destination directory before opening the
archive, so after a failed extraction the directory exists while the
archive is retained: the resulting state is exactly the prior state plus
the new directory. -/
theorem c10_mkdir_before_open (zipRead : ZipReader) (fs : FS) (path : String)
    (bytes : Bytes) (msg : String) (hread : fsRead fs path = some bytes)
    (hfail : zipRead bytes = Except.error msg) :
    extract_zip zipRead fs path true = fsMkdir fs (splitextFst path) ∧
    fsIsDir (extract_zip zipRead fs path true) (splitextFst path) = true ∧
    fsRead (extract_zip zipRead fs path true) path = some bytes := by
  have hread1 : fsRead (fsMkdir fs (splitextFst path)) path = some bytes := by
    rw [fsRead_fsMkdir]
    exact hread
  have hmain : extract_zip zipRead fs path true = fsMkdir fs (splitextFst path) := by
    simp [extract_zip, hread1, hfail]
  refine ⟨hmain, ?_, ?_⟩
  · rw [hmain]
    simp [fsIsDir, fsMkdir]
  · rw [hmain, fsRead_fsMkdir]
    exact hread

/-- C10, witness: failing to extract zip/bad.zip leaves a state holding the
zip/bad directory together with the untouched archive bytes. -/
theorem c10_mkdir_before_open_witness :
    fsRead c10Fs "zip/bad.zip" = some [4, 5] ∧
    c10Zr [4, 5] = Except.error "BadZipFile" ∧
    splitextFst "zip/bad.zip" = "zip/bad" ∧
    extract_zip c10Zr c10Fs "zip/bad.zip" true =
      fsMkdir c10Fs (splitextFst "zip/bad.zip") ∧
    fsIsDir (extract_zip c10Zr c10Fs "zip/bad.zip" true)
      (splitextFst "zip/bad.zip") = true ∧
    fsRead (extract_zip c10Zr c10Fs "zip/bad.zip" true) "zip/bad.zip" =
      some [4, 5] :=
  ⟨by decide, rfl, by decide,
    (c10_mkdir_before_open c10Zr c10Fs "zip/bad.zip" [4, 5] "BadZipFile"
      (by decide) rfl).1,
    (c10_mkdir_before_open c10Zr c10Fs "zip/bad.zip" [4, 5] "BadZipFile"
      (by decide) rfl).2.1,
    (c10_mkdir_before_open c10Zr c10Fs "zip/bad.zip" [4, 5] "BadZipFile"
      (by decide) rfl).2.2⟩

end Eprx
